import Mathlib

/-
  Shallow embedding of the spring-physics engine of this repository
  (class `AdvancedSpringPhysics` in `src/Spring.cc`).  The C++ `double`
  values are modelled as real numbers; `std::sqrt`, `std::atan2`,
  `std::cos` and `std::sin` are modelled by the corresponding real
  functions.  The three engine operations `update` (integrate), `dragTo`
  and `release` are translated line by line from the source.
-/

noncomputable section

namespace Spring

/-- `std::atan2 y x`: the angle of the vector `(x, y)`, in `(-π, π]`,
with `atan2 0 0 = 0`, modelled as the argument of the complex number
`x + y i`. -/
def atan2 (y x : ℝ) : ℝ := Complex.arg ⟨x, y⟩

/-- `SCREEN_WIDTH` (src/Spring.cc line 8). -/
def SCREEN_WIDTH : ℝ := 800

/-- `struct SpringState` (src/Spring.cc lines 16-36). -/
@[ext]
structure SpringState where
  anchorX : ℝ
  anchorY : ℝ
  currentX : ℝ
  currentY : ℝ
  restLength : ℝ
  currentLength : ℝ
  stiffness : ℝ
  damping : ℝ
  mass : ℝ
  velocityX : ℝ
  velocityY : ℝ
  isDragged : Bool
  minLength : ℝ
  maxLength : ℝ
  isLimitReached : Bool
  lastDragX : ℝ
  lastDragY : ℝ
  initialReleaseVelocityX : ℝ
  initialReleaseVelocityY : ℝ

/-- The state built by the constructor `AdvancedSpringPhysics()`
(src/Spring.cc lines 40-63). -/
def initialState : SpringState where
  anchorX := SCREEN_WIDTH / 2
  anchorY := 100
  currentX := SCREEN_WIDTH / 2
  currentY := 300
  restLength := 200
  currentLength := 200
  stiffness := 100
  damping := 0.3
  mass := 1
  velocityX := 0
  velocityY := 0
  isDragged := false
  minLength := 100
  maxLength := 450
  isLimitReached := false
  lastDragX := SCREEN_WIDTH / 2
  lastDragY := 300
  initialReleaseVelocityX := 0
  initialReleaseVelocityY := 0

/-- Distance from the anchor to the current mass position, as the code
computes it (`std::sqrt(dx*dx + dy*dy)` on the displacement from the
anchor). -/
def SpringState.len (s : SpringState) : ℝ :=
  Real.sqrt ((s.currentX - s.anchorX) * (s.currentX - s.anchorX) +
    (s.currentY - s.anchorY) * (s.currentY - s.anchorY))

/-- The candidate ("potential") length from the anchor to a pointer
position, as computed at the top of `dragTo` (src/Spring.cc lines 145-147). -/
def dragLen (s : SpringState) (mouseX mouseY : ℝ) : ℝ :=
  Real.sqrt ((mouseX - s.anchorX) * (mouseX - s.anchorX) +
    (mouseY - s.anchorY) * (mouseY - s.anchorY))

/-- The dragged-mode early-return branch of `update`
(src/Spring.cc lines 67-81): sample a pending release velocity from the
displacement since the last recorded drag position and record the current
position as the last drag position. -/
def dragSample (s : SpringState) (deltaTime : ℝ) : SpringState :=
  { s with
    initialReleaseVelocityX := (s.currentX - s.lastDragX) / deltaTime
    initialReleaseVelocityY := (s.currentY - s.lastDragY) / deltaTime
    lastDragX := s.currentX
    lastDragY := s.currentY }

/-- The one-shot release-velocity handoff at the start of the free-mode
branch of `update` (src/Spring.cc lines 89-98). -/
def applyRelease (s : SpringState) : SpringState :=
  if |s.initialReleaseVelocityX| > 0 ∨ |s.initialReleaseVelocityY| > 0 then
    { s with
      velocityX := s.initialReleaseVelocityX
      velocityY := s.initialReleaseVelocityY
      initialReleaseVelocityX := 0
      initialReleaseVelocityY := 0 }
  else s

/-- Force computation and semi-implicit Euler integration of the
free-mode branch of `update` (src/Spring.cc lines 83-117). -/
def eulerStep (s : SpringState) (deltaTime : ℝ) : SpringState :=
  let dx := s.currentX - s.anchorX
  let dy := s.currentY - s.anchorY
  let currentLength := Real.sqrt (dx * dx + dy * dy)
  let springForceX := -s.stiffness * (currentLength - s.restLength) * (dx / currentLength)
  let springForceY := -s.stiffness * (currentLength - s.restLength) * (dy / currentLength)
  let dampingForceX := -s.damping * s.velocityX
  let dampingForceY := -s.damping * s.velocityY
  let gravityForceY := s.mass * 9.8
  let vX := s.velocityX + (springForceX + dampingForceX) / s.mass * deltaTime
  let vY := s.velocityY + (springForceY + dampingForceY + gravityForceY) / s.mass * deltaTime
  { s with
    velocityX := vX
    velocityY := vY
    currentX := s.currentX + vX * deltaTime
    currentY := s.currentY + vY * deltaTime }

/-- Length-constraint enforcement at the end of the free-mode branch of
`update` (src/Spring.cc lines 119-140). -/
def enforceLength (s : SpringState) : SpringState :=
  let dx := s.currentX - s.anchorX
  let dy := s.currentY - s.anchorY
  let currentLength := Real.sqrt (dx * dx + dy * dy)
  if currentLength < s.minLength then
    let angle := atan2 dy dx
    { s with
      currentX := s.anchorX + s.minLength * Real.cos angle
      currentY := s.anchorY + s.minLength * Real.sin angle
      velocityX := s.velocityX * (-0.5)
      velocityY := s.velocityY * (-0.5) }
  else if currentLength > s.maxLength then
    let angle := atan2 dy dx
    { s with
      currentX := s.anchorX + s.maxLength * Real.cos angle
      currentY := s.anchorY + s.maxLength * Real.sin angle
      velocityX := s.velocityX * (-0.5)
      velocityY := s.velocityY * (-0.5) }
  else s

/-- The intermediate (pre-clamp) state of a free-mode `update` call:
handoff followed by the Euler step. -/
def freeStep (s : SpringState) (deltaTime : ℝ) : SpringState :=
  eulerStep (applyRelease s) deltaTime

/-- `AdvancedSpringPhysics::update` (src/Spring.cc lines 65-141). -/
def update (s : SpringState) (deltaTime : ℝ) : SpringState :=
  if s.isDragged then dragSample s deltaTime
  else enforceLength (freeStep s deltaTime)

/-- `AdvancedSpringPhysics::dragTo` (src/Spring.cc lines 143-182). -/
def dragTo (s : SpringState) (mouseX mouseY : ℝ) : SpringState :=
  let dx := mouseX - s.anchorX
  let dy := mouseY - s.anchorY
  let potentialLength := Real.sqrt (dx * dx + dy * dy)
  let angle := atan2 dy dx
  if s.minLength ≤ potentialLength ∧ potentialLength ≤ s.maxLength then
    { s with
      isDragged := true
      currentX := mouseX
      currentY := mouseY
      lastDragX := mouseX
      lastDragY := mouseY
      velocityX := 0
      velocityY := 0
      isLimitReached := false }
  else
    if s.isLimitReached = false then
      if potentialLength < s.minLength then
        { s with
          isDragged := true
          currentX := s.anchorX + s.minLength * Real.cos angle
          currentY := s.anchorY + s.minLength * Real.sin angle
          lastDragX := s.anchorX + s.minLength * Real.cos angle
          lastDragY := s.anchorY + s.minLength * Real.sin angle
          isLimitReached := true }
      else if potentialLength > s.maxLength then
        { s with
          isDragged := true
          currentX := s.anchorX + s.maxLength * Real.cos angle
          currentY := s.anchorY + s.maxLength * Real.sin angle
          lastDragX := s.anchorX + s.maxLength * Real.cos angle
          lastDragY := s.anchorY + s.maxLength * Real.sin angle
          isLimitReached := true }
      else
        { s with isDragged := true }
    else
      { s with isDragged := true }

/-- `AdvancedSpringPhysics::release` (src/Spring.cc lines 184-188). -/
def release (s : SpringState) : SpringState :=
  { s with isDragged := false, isLimitReached := false }

/-- `update` with the spring-force division of src/Spring.cc lines 101-102
made explicit: it returns `none` exactly when the free-mode force
computation would divide by a zero `currentLength`, and otherwise returns
the state `update` produces. -/
def updateChecked (s : SpringState) (deltaTime : ℝ) : Option SpringState :=
  if s.isDragged then some (dragSample s deltaTime)
  else
    if (applyRelease s).len = 0 then none
    else some (enforceLength (freeStep s deltaTime))

/-- States reachable from the initial configuration by any sequence of
engine calls. -/
inductive Reachable : SpringState → Prop
  | init : Reachable initialState
  | step_update {s : SpringState} (deltaTime : ℝ) :
      Reachable s → Reachable (update s deltaTime)
  | step_dragTo {s : SpringState} (mouseX mouseY : ℝ) :
      Reachable s → Reachable (dragTo s mouseX mouseY)
  | step_release {s : SpringState} :
      Reachable s → Reachable (release s)

/-! ### Basic facts about the geometry helpers -/

lemma sqrt_eval (a b : ℝ) (hb : 0 ≤ b) (h : a = b * b) : Real.sqrt a = b := by
  rw [h, Real.sqrt_mul_self hb]

/-- A point placed at distance `r ≥ 0` from `(ax, ay)` along any angle is at
distance `r` from `(ax, ay)`. -/
lemma len_clamp (ax ay dx dy r : ℝ) (hr : 0 ≤ r) :
    Real.sqrt ((ax + r * Real.cos (atan2 dy dx) - ax) * (ax + r * Real.cos (atan2 dy dx) - ax) +
      (ay + r * Real.sin (atan2 dy dx) - ay) * (ay + r * Real.sin (atan2 dy dx) - ay)) = r := by
  have h1 : (ax + r * Real.cos (atan2 dy dx) - ax) * (ax + r * Real.cos (atan2 dy dx) - ax) +
      (ay + r * Real.sin (atan2 dy dx) - ay) * (ay + r * Real.sin (atan2 dy dx) - ay)
      = (Real.sin (atan2 dy dx) ^ 2 + Real.cos (atan2 dy dx) ^ 2) * (r * r) := by ring
  rw [h1, Real.sin_sq_add_cos_sq, one_mul, Real.sqrt_mul_self hr]

lemma cos_atan2 (y x : ℝ) (h : ¬(x = 0 ∧ y = 0)) :
    Real.cos (atan2 y x) = x / Real.sqrt (x * x + y * y) := by
  have hz : (⟨x, y⟩ : ℂ) ≠ 0 := by
    simp only [ne_eq, Complex.ext_iff, Complex.zero_re, Complex.zero_im]
    exact h
  rw [atan2, Complex.cos_arg hz, Complex.abs_apply, Complex.normSq_mk]

lemma sin_atan2 (y x : ℝ) :
    Real.sin (atan2 y x) = y / Real.sqrt (x * x + y * y) := by
  rw [atan2, Complex.sin_arg, Complex.abs_apply, Complex.normSq_mk]

lemma sqrt_sq_sum_eq_zero_iff (a b : ℝ) :
    Real.sqrt (a * a + b * b) = 0 ↔ a = 0 ∧ b = 0 := by
  rw [Real.sqrt_eq_zero (add_nonneg (mul_self_nonneg a) (mul_self_nonneg b))]
  constructor
  · intro h
    constructor
    · nlinarith [sq_nonneg a, sq_nonneg b]
    · nlinarith [sq_nonneg a, sq_nonneg b]
  · rintro ⟨ha, hb⟩
    rw [ha, hb]
    ring

/-! ### Field-preservation facts for the engine operations -/

lemma applyRelease_self (s : SpringState) (hx : s.initialReleaseVelocityX = 0)
    (hy : s.initialReleaseVelocityY = 0) : applyRelease s = s := by
  rw [applyRelease, if_neg]
  rw [hx, hy]
  simp

lemma enforceLength_minLength (s : SpringState) :
    (enforceLength s).minLength = s.minLength := by
  simp only [enforceLength]
  split_ifs <;> rfl

lemma enforceLength_maxLength (s : SpringState) :
    (enforceLength s).maxLength = s.maxLength := by
  simp only [enforceLength]
  split_ifs <;> rfl

lemma enforceLength_isDragged (s : SpringState) :
    (enforceLength s).isDragged = s.isDragged := by
  simp only [enforceLength]
  split_ifs <;> rfl

lemma enforceLength_isLimitReached (s : SpringState) :
    (enforceLength s).isLimitReached = s.isLimitReached := by
  simp only [enforceLength]
  split_ifs <;> rfl

lemma enforceLength_rvX (s : SpringState) :
    (enforceLength s).initialReleaseVelocityX = s.initialReleaseVelocityX := by
  simp only [enforceLength]
  split_ifs <;> rfl

lemma enforceLength_rvY (s : SpringState) :
    (enforceLength s).initialReleaseVelocityY = s.initialReleaseVelocityY := by
  simp only [enforceLength]
  split_ifs <;> rfl

lemma dragTo_anchorX (s : SpringState) (x y : ℝ) : (dragTo s x y).anchorX = s.anchorX := by
  simp only [dragTo]
  split_ifs <;> rfl

lemma dragTo_anchorY (s : SpringState) (x y : ℝ) : (dragTo s x y).anchorY = s.anchorY := by
  simp only [dragTo]
  split_ifs <;> rfl

lemma dragTo_minLength (s : SpringState) (x y : ℝ) :
    (dragTo s x y).minLength = s.minLength := by
  simp only [dragTo]
  split_ifs <;> rfl

lemma dragTo_maxLength (s : SpringState) (x y : ℝ) :
    (dragTo s x y).maxLength = s.maxLength := by
  simp only [dragTo]
  split_ifs <;> rfl

lemma dragTo_isDragged (s : SpringState) (x y : ℝ) :
    (dragTo s x y).isDragged = true := by
  simp only [dragTo]
  split_ifs <;> rfl

lemma dragTo_rvX (s : SpringState) (x y : ℝ) :
    (dragTo s x y).initialReleaseVelocityX = s.initialReleaseVelocityX := by
  simp only [dragTo]
  split_ifs <;> rfl

lemma dragTo_rvY (s : SpringState) (x y : ℝ) :
    (dragTo s x y).initialReleaseVelocityY = s.initialReleaseVelocityY := by
  simp only [dragTo]
  split_ifs <;> rfl

/-- The length bound established by the constraint-enforcement step: as long
as `0 ≤ minLength ≤ maxLength`, the state it returns has its length inside
the envelope. -/
lemma enforceLength_len_bounds (s : SpringState) (h0 : 0 ≤ s.minLength)
    (hmm : s.minLength ≤ s.maxLength) :
    s.minLength ≤ (enforceLength s).len ∧ (enforceLength s).len ≤ s.maxLength := by
  simp only [enforceLength, SpringState.len]
  split_ifs with h1 h2
  · simp only
    rw [len_clamp _ _ _ _ _ h0]
    exact ⟨le_refl _, hmm⟩
  · simp only
    rw [len_clamp _ _ _ _ _ (le_trans h0 hmm)]
    exact ⟨hmm, le_refl _⟩
  · exact ⟨le_of_not_lt h1, le_of_not_lt h2⟩

lemma applyRelease_minLength (s : SpringState) :
    (applyRelease s).minLength = s.minLength := by
  rw [applyRelease]
  split_ifs <;> rfl

lemma applyRelease_maxLength (s : SpringState) :
    (applyRelease s).maxLength = s.maxLength := by
  rw [applyRelease]
  split_ifs <;> rfl

lemma applyRelease_anchorX (s : SpringState) :
    (applyRelease s).anchorX = s.anchorX := by
  rw [applyRelease]
  split_ifs <;> rfl

lemma applyRelease_anchorY (s : SpringState) :
    (applyRelease s).anchorY = s.anchorY := by
  rw [applyRelease]
  split_ifs <;> rfl

lemma applyRelease_len (s : SpringState) : (applyRelease s).len = s.len := by
  rw [applyRelease]
  split_ifs <;> rfl

lemma freeStep_minLength (s : SpringState) (dt : ℝ) :
    (freeStep s dt).minLength = s.minLength := by
  rw [freeStep]
  exact applyRelease_minLength s

lemma freeStep_maxLength (s : SpringState) (dt : ℝ) :
    (freeStep s dt).maxLength = s.maxLength := by
  rw [freeStep]
  exact applyRelease_maxLength s

lemma freeStep_anchorX (s : SpringState) (dt : ℝ) :
    (freeStep s dt).anchorX = s.anchorX := by
  rw [freeStep]
  exact applyRelease_anchorX s

lemma freeStep_anchorY (s : SpringState) (dt : ℝ) :
    (freeStep s dt).anchorY = s.anchorY := by
  rw [freeStep]
  exact applyRelease_anchorY s

/-- Constraint enforcement when the length is below the minimum: clamp to the
minimum boundary and reverse-halve the velocity (src/Spring.cc lines 124-131). -/
lemma enforceLength_of_lt (s : SpringState) (h : s.len < s.minLength) :
    enforceLength s =
      { s with
        currentX := s.anchorX + s.minLength *
          Real.cos (atan2 (s.currentY - s.anchorY) (s.currentX - s.anchorX))
        currentY := s.anchorY + s.minLength *
          Real.sin (atan2 (s.currentY - s.anchorY) (s.currentX - s.anchorX))
        velocityX := s.velocityX * (-0.5)
        velocityY := s.velocityY * (-0.5) } := by
  simp only [SpringState.len] at h
  simp only [enforceLength]
  rw [if_pos h]

/-- Constraint enforcement when the length is beyond the maximum
(src/Spring.cc lines 132-139). -/
lemma enforceLength_of_gt (s : SpringState) (h1 : ¬s.len < s.minLength)
    (h2 : s.maxLength < s.len) :
    enforceLength s =
      { s with
        currentX := s.anchorX + s.maxLength *
          Real.cos (atan2 (s.currentY - s.anchorY) (s.currentX - s.anchorX))
        currentY := s.anchorY + s.maxLength *
          Real.sin (atan2 (s.currentY - s.anchorY) (s.currentX - s.anchorX))
        velocityX := s.velocityX * (-0.5)
        velocityY := s.velocityY * (-0.5) } := by
  simp only [SpringState.len] at h1 h2
  simp only [enforceLength]
  rw [if_neg h1, if_pos h2]

/-- Constraint enforcement is a no-op when the length is inside the
envelope. -/
lemma enforceLength_of_mem (s : SpringState) (h1 : s.minLength ≤ s.len)
    (h2 : s.len ≤ s.maxLength) : enforceLength s = s := by
  simp only [SpringState.len] at h1 h2
  simp only [enforceLength]
  rw [if_neg (not_lt.mpr h1), if_neg (not_lt.mpr h2)]

/-- The first out-of-range `dragTo` call beyond the maximum pins the mass to
the maximum boundary along the pointer's angle (src/Spring.cc lines 173-179). -/
lemma dragTo_pin_max (s : SpringState) (x y : ℝ) (hmm : s.minLength ≤ s.maxLength)
    (hl : s.isLimitReached = false) (hout : s.maxLength < dragLen s x y) :
    dragTo s x y =
      { s with
        isDragged := true
        currentX := s.anchorX + s.maxLength * Real.cos (atan2 (y - s.anchorY) (x - s.anchorX))
        currentY := s.anchorY + s.maxLength * Real.sin (atan2 (y - s.anchorY) (x - s.anchorX))
        lastDragX := s.anchorX + s.maxLength * Real.cos (atan2 (y - s.anchorY) (x - s.anchorX))
        lastDragY := s.anchorY + s.maxLength * Real.sin (atan2 (y - s.anchorY) (x - s.anchorX))
        isLimitReached := true } := by
  simp only [dragLen] at hout
  simp only [dragTo]
  rw [if_neg, if_pos hl, if_neg, if_pos hout]
  · exact not_lt.mpr (le_of_lt (lt_of_le_of_lt hmm hout))
  · intro hc
    exact absurd hc.2 (not_le.mpr hout)

/-- An in-envelope `dragTo` call accepts the pointer position verbatim
(src/Spring.cc lines 151-159). -/
lemma dragTo_in_range (s : SpringState) (x y : ℝ)
    (h1 : s.minLength ≤ dragLen s x y) (h2 : dragLen s x y ≤ s.maxLength) :
    dragTo s x y =
      { s with
        isDragged := true
        currentX := x
        currentY := y
        lastDragX := x
        lastDragY := y
        velocityX := 0
        velocityY := 0
        isLimitReached := false } := by
  simp only [dragLen] at h1 h2
  simp only [dragTo]
  rw [if_pos ⟨h1, h2⟩]

/-- An out-of-range `dragTo` call while the limit is already reached only
sets the dragged flag; the position sticks at the boundary
(src/Spring.cc lines 162-166 with the inner branch skipped). -/
lemma dragTo_pinned_noop (t : SpringState) (u v : ℝ) (htl : t.isLimitReached = true)
    (hout2 : dragLen t u v < t.minLength ∨ t.maxLength < dragLen t u v) :
    dragTo t u v = { t with isDragged := true } := by
  simp only [dragLen] at hout2
  simp only [dragTo]
  rw [if_neg, if_neg]
  · intro hc
    rw [htl] at hc
    exact Bool.noConfusion hc
  · intro hc
    rcases hout2 with h | h
    · exact absurd hc.1 (not_le.mpr h)
    · exact absurd hc.2 (not_le.mpr h)

/-- `updateChecked` refines `update`: whenever the checked variant succeeds
it returns exactly the state `update` produces. -/
lemma updateChecked_sound (s : SpringState) (dt : ℝ) (t : SpringState)
    (h : updateChecked s dt = some t) : update s dt = t := by
  rw [updateChecked] at h
  rw [update]
  split_ifs at h ⊢ with h1 h2
  all_goals exact Option.some.inj h

/-! ### The reachable-state invariant -/

/-- The master invariant maintained by every engine operation, starting from
`initialState`: the length parameters are the constructor's, the mass stays
inside the length envelope, the pending release velocity is always zero
(because `dragTo` itself refreshes the last-drag position, the dragged-mode
sampling always sees a zero displacement), the last-drag position tracks the
current position while dragged, `isLimitReached` only holds while dragged,
and the live velocity is zero while dragged with the limit not reached. -/
structure Inv (s : SpringState) : Prop where
  hmin : s.minLength = 100
  hmax : s.maxLength = 450
  len_lb : 100 ≤ s.len
  len_ub : s.len ≤ 450
  rvx : s.initialReleaseVelocityX = 0
  rvy : s.initialReleaseVelocityY = 0
  drag_last : s.isDragged = true → s.lastDragX = s.currentX ∧ s.lastDragY = s.currentY
  limit_drag : s.isLimitReached = true → s.isDragged = true
  drag_vel : s.isDragged = true → s.isLimitReached = false →
    s.velocityX = 0 ∧ s.velocityY = 0

lemma initialState_len : initialState.len = 200 := by
  simp only [SpringState.len]
  apply sqrt_eval _ _ (by norm_num)
  simp only [initialState, SCREEN_WIDTH]
  norm_num

lemma inv_initialState : Inv initialState := by
  refine ⟨rfl, rfl, ?_, ?_, rfl, rfl, ?_, ?_, ?_⟩
  · rw [initialState_len]; norm_num
  · rw [initialState_len]; norm_num
  · intro hdd; exact Bool.noConfusion hdd
  · intro hl; exact Bool.noConfusion hl
  · intro hdd _; exact Bool.noConfusion hdd

lemma inv_update (s : SpringState) (h : Inv s) (dt : ℝ) : Inv (update s dt) := by
  by_cases hd : s.isDragged = true
  · rw [update, if_pos hd]
    obtain ⟨hlx, hly⟩ := h.drag_last hd
    refine ⟨h.hmin, h.hmax, h.len_lb, h.len_ub, ?_, ?_, ?_, ?_, ?_⟩
    · show (s.currentX - s.lastDragX) / dt = 0
      rw [hlx, sub_self, zero_div]
    · show (s.currentY - s.lastDragY) / dt = 0
      rw [hly, sub_self, zero_div]
    · intro _; exact ⟨rfl, rfl⟩
    · exact h.limit_drag
    · exact h.drag_vel
  · rw [update, if_neg hd, freeStep, applyRelease_self s h.rvx h.rvy]
    have h0 : (0 : ℝ) ≤ (eulerStep s dt).minLength := by
      show (0 : ℝ) ≤ s.minLength
      rw [h.hmin]; norm_num
    have hmm : (eulerStep s dt).minLength ≤ (eulerStep s dt).maxLength := by
      show s.minLength ≤ s.maxLength
      rw [h.hmin, h.hmax]; norm_num
    have hb := enforceLength_len_bounds (eulerStep s dt) h0 hmm
    refine ⟨?_, ?_, ?_, ?_, ?_, ?_, ?_, ?_, ?_⟩
    · rw [enforceLength_minLength]; exact h.hmin
    · rw [enforceLength_maxLength]; exact h.hmax
    · have h1 := hb.1
      have h2 : (eulerStep s dt).minLength = (100 : ℝ) := h.hmin
      rw [h2] at h1; exact h1
    · have h1 := hb.2
      have h2 : (eulerStep s dt).maxLength = (450 : ℝ) := h.hmax
      rw [h2] at h1; exact h1
    · rw [enforceLength_rvX]; exact h.rvx
    · rw [enforceLength_rvY]; exact h.rvy
    · intro hdd
      rw [enforceLength_isDragged] at hdd
      exact absurd hdd hd
    · intro hl
      rw [enforceLength_isLimitReached] at hl
      exact absurd (h.limit_drag hl) hd
    · intro hdd _
      rw [enforceLength_isDragged] at hdd
      exact absurd hdd hd

lemma inv_dragTo (s : SpringState) (h : Inv s) (x y : ℝ) : Inv (dragTo s x y) := by
  simp only [dragTo]
  split_ifs with h1 h2 h3 h4
  · -- in-range drag
    refine ⟨h.hmin, h.hmax, ?_, ?_, h.rvx, h.rvy, ?_, ?_, ?_⟩
    · have := h1.1; rw [h.hmin] at this; exact this
    · have := h1.2; rw [h.hmax] at this; exact this
    · intro _; exact ⟨rfl, rfl⟩
    · intro hl; exact Bool.noConfusion hl
    · intro _ _; exact ⟨rfl, rfl⟩
  · -- first out-of-range call, below the minimum
    have hc := len_clamp s.anchorX s.anchorY (x - s.anchorX) (y - s.anchorY) s.minLength
      (by rw [h.hmin]; norm_num)
    refine ⟨h.hmin, h.hmax, ?_, ?_, h.rvx, h.rvy, ?_, ?_, ?_⟩
    · show (100 : ℝ) ≤ Real.sqrt _
      rw [hc, h.hmin]
    · show Real.sqrt _ ≤ (450 : ℝ)
      rw [hc, h.hmin]; norm_num
    · intro _; exact ⟨rfl, rfl⟩
    · intro _; rfl
    · intro _ hl; exact Bool.noConfusion hl
  · -- first out-of-range call, beyond the maximum
    have hc := len_clamp s.anchorX s.anchorY (x - s.anchorX) (y - s.anchorY) s.maxLength
      (by rw [h.hmax]; norm_num)
    refine ⟨h.hmin, h.hmax, ?_, ?_, h.rvx, h.rvy, ?_, ?_, ?_⟩
    · show (100 : ℝ) ≤ Real.sqrt _
      rw [hc, h.hmax]; norm_num
    · show Real.sqrt _ ≤ (450 : ℝ)
      rw [hc, h.hmax]
    · intro _; exact ⟨rfl, rfl⟩
    · intro _; rfl
    · intro _ hl; exact Bool.noConfusion hl
  · -- impossible: outside the envelope but neither below nor above
    exact absurd ⟨not_lt.mp h3, not_lt.mp h4⟩ h1
  · -- out-of-range call while already pinned at a limit
    have hlim : s.isLimitReached = true := by
      cases hll : s.isLimitReached
      · exact absurd hll h2
      · rfl
    obtain ⟨hlx, hly⟩ := h.drag_last (h.limit_drag hlim)
    refine ⟨h.hmin, h.hmax, h.len_lb, h.len_ub, h.rvx, h.rvy, ?_, ?_, ?_⟩
    · intro _; exact ⟨hlx, hly⟩
    · intro _; rfl
    · intro _ hl
      rw [hlim] at hl
      exact Bool.noConfusion hl

lemma inv_release (s : SpringState) (h : Inv s) : Inv (release s) := by
  refine ⟨h.hmin, h.hmax, h.len_lb, h.len_ub, h.rvx, h.rvy, ?_, ?_, ?_⟩
  · intro hdd; exact Bool.noConfusion hdd
  · intro hl; exact Bool.noConfusion hl
  · intro hdd _; exact Bool.noConfusion hdd

/-- Every reachable state satisfies the master invariant. -/
lemma reachable_inv {s : SpringState} (h : Reachable s) : Inv s := by
  induction h with
  | init => exact inv_initialState
  | step_update dt _ ih => exact inv_update _ ih dt
  | step_dragTo x y _ ih => exact inv_dragTo _ ih x y
  | step_release _ ih => exact inv_release _ ih

lemma applyRelease_mass (s : SpringState) : (applyRelease s).mass = s.mass := by
  rw [applyRelease]
  split_ifs <;> rfl

lemma enforceLength_mass (s : SpringState) : (enforceLength s).mass = s.mass := by
  simp only [enforceLength]
  split_ifs <;> rfl

lemma update_mass (s : SpringState) (dt : ℝ) : (update s dt).mass = s.mass := by
  rw [update]
  split_ifs
  · rfl
  · rw [enforceLength_mass, freeStep]
    exact applyRelease_mass s

lemma dragTo_mass (s : SpringState) (x y : ℝ) : (dragTo s x y).mass = s.mass := by
  simp only [dragTo]
  split_ifs <;> rfl

/-- No engine operation ever writes the mass: it keeps the constructor's
value 1 on every reachable state, so the division by `state.mass` in the
force integration always has the nonzero denominator 1. -/
lemma reachable_mass {s : SpringState} (h : Reachable s) : s.mass = 1 := by
  induction h with
  | init => rfl
  | step_update dt _ ih => rw [update_mass]; exact ih
  | step_dragTo x y _ ih => rw [dragTo_mass]; exact ih
  | step_release _ ih => rw [show (release _).mass = _ from rfl]; exact ih

/-! ### Concrete states and evaluations used in scenarios -/

/-- The state after an in-envelope drag of the initial state to `(400, 300)`. -/
def draggedState : SpringState :=
  { initialState with
    isDragged := true
    currentX := 400
    currentY := 300
    lastDragX := 400
    lastDragY := 300
    velocityX := 0
    velocityY := 0
    isLimitReached := false }

/-- The state after dragging on to `(410, 300)`. -/
def draggedState2 : SpringState :=
  { initialState with
    isDragged := true
    currentX := 410
    currentY := 300
    lastDragX := 410
    lastDragY := 300
    velocityX := 0
    velocityY := 0
    isLimitReached := false }

lemma dragLen_init_400_300 : dragLen initialState 400 300 = 200 := by
  simp only [dragLen, initialState, SCREEN_WIDTH]
  apply sqrt_eval _ _ (by norm_num)
  norm_num

lemma dragTo_init_400_300 : dragTo initialState 400 300 = draggedState := by
  rw [dragTo_in_range]
  · rfl
  · rw [dragLen_init_400_300]
    show (100 : ℝ) ≤ 200
    norm_num
  · rw [dragLen_init_400_300]
    show (200 : ℝ) ≤ 450
    norm_num

lemma dragLen_dragged_410_300 : dragLen draggedState 410 300 = Real.sqrt 40100 := by
  simp only [dragLen, draggedState, initialState, SCREEN_WIDTH]
  norm_num

lemma dragTo_dragged_410_300 : dragTo draggedState 410 300 = draggedState2 := by
  rw [dragTo_in_range]
  · rfl
  · rw [dragLen_dragged_410_300]
    show (100 : ℝ) ≤ Real.sqrt 40100
    have h : (100 : ℝ) = Real.sqrt 10000 :=
      (sqrt_eval 10000 100 (by norm_num) (by norm_num)).symm
    rw [h]
    exact Real.sqrt_le_sqrt (by norm_num)
  · rw [dragLen_dragged_410_300]
    show Real.sqrt 40100 ≤ (450 : ℝ)
    have h : (450 : ℝ) = Real.sqrt 202500 :=
      (sqrt_eval 202500 450 (by norm_num) (by norm_num)).symm
    rw [h]
    exact Real.sqrt_le_sqrt (by norm_num)

lemma update_draggedState2 : update draggedState2 1 = draggedState2 := by
  rw [update, if_pos (show draggedState2.isDragged = true from rfl), dragSample]
  apply SpringState.ext <;> simp [draggedState2, initialState]

/-- The state one `update 1` call after the initial state: free fall for one
second from the rest position. -/
def fallState : SpringState :=
  { initialState with velocityY := 9.8, currentY := 309.8 }

lemma eulerStep_init_1 : eulerStep initialState 1 = fallState := by
  have h1 : Real.sqrt ((400 - 400) * (400 - 400) + (300 - 100) * (300 - 100)) = 200 := by
    apply sqrt_eval _ _ (by norm_num)
    norm_num
  rw [eulerStep]
  simp only [initialState, SCREEN_WIDTH, fallState]
  norm_num at h1 ⊢
  rw [h1]
  norm_num

lemma fallState_len : fallState.len = 209.8 := by
  simp only [SpringState.len, fallState, initialState, SCREEN_WIDTH]
  apply sqrt_eval _ _ (by norm_num)
  norm_num

lemma update_init_1 : update initialState 1 = fallState := by
  rw [update, if_neg (fun h => Bool.noConfusion h), freeStep,
    applyRelease_self initialState rfl rfl, eulerStep_init_1]
  apply enforceLength_of_mem
  · rw [fallState_len]
    show (100 : ℝ) ≤ 209.8
    norm_num
  · rw [fallState_len]
    show (209.8 : ℝ) ≤ 450
    norm_num

/-- The state one `update 0.016` call after the initial state. -/
def firstStepState : SpringState :=
  { initialState with velocityY := 0.1568, currentY := 300.0025088 }

lemma eulerStep_init_016 : eulerStep initialState 0.016 = firstStepState := by
  have h1 : Real.sqrt ((400 - 400) * (400 - 400) + (300 - 100) * (300 - 100)) = 200 := by
    apply sqrt_eval _ _ (by norm_num)
    norm_num
  rw [eulerStep]
  simp only [initialState, SCREEN_WIDTH, firstStepState]
  norm_num at h1 ⊢
  rw [h1]
  norm_num

lemma firstStepState_len : firstStepState.len = 200.0025088 := by
  simp only [SpringState.len, firstStepState, initialState, SCREEN_WIDTH]
  apply sqrt_eval _ _ (by norm_num)
  norm_num

lemma update_init_016 : update initialState 0.016 = firstStepState := by
  rw [update, if_neg (fun h => Bool.noConfusion h), freeStep,
    applyRelease_self initialState rfl rfl, eulerStep_init_016]
  apply enforceLength_of_mem
  · rw [firstStepState_len]
    show (100 : ℝ) ≤ 200.0025088
    norm_num
  · rw [firstStepState_len]
    show (200.0025088 : ℝ) ≤ 450
    norm_num

/-! ### The claims -/

/-- Claim C1: for every state reachable from the initial configuration by
any sequence of engine calls, immediately after any `update` (integrate) or
`dragTo` call returns, the distance from the anchor to the current position
is at least `minLength` and at most `maxLength`. -/
theorem C1_length_envelope (s : SpringState) (h : Reachable s) (dt x y : ℝ) :
    ((update s dt).minLength ≤ (update s dt).len ∧
      (update s dt).len ≤ (update s dt).maxLength) ∧
    ((dragTo s x y).minLength ≤ (dragTo s x y).len ∧
      (dragTo s x y).len ≤ (dragTo s x y).maxLength) := by
  have h1 := reachable_inv (Reachable.step_update dt h)
  have h2 := reachable_inv (Reachable.step_dragTo x y h)
  refine ⟨⟨?_, ?_⟩, ⟨?_, ?_⟩⟩
  · rw [h1.hmin]
    exact h1.len_lb
  · rw [h1.hmax]
    exact h1.len_ub
  · rw [h2.hmin]
    exact h2.len_lb
  · rw [h2.hmax]
    exact h2.len_ub

/-- Witness for C1 at the initial state with `deltaTime = 1` and a drag to
`(500, 500)`. -/
theorem C1_length_envelope_witness :
    ((update initialState 1).minLength ≤ (update initialState 1).len ∧
      (update initialState 1).len ≤ (update initialState 1).maxLength) ∧
    ((dragTo initialState 500 500).minLength ≤ (dragTo initialState 500 500).len ∧
      (dragTo initialState 500 500).len ≤ (dragTo initialState 500 500).maxLength) :=
  C1_length_envelope initialState Reachable.init 1 500 500

/-- Claim C3: in every reachable state with `isDragged = true`, the recorded
last-drag position equals the current position, so a dragged-mode `update`
call computes a zero displacement and stores a pending release velocity of
`(0, 0)`. -/
theorem C3_drag_tracks_position (s : SpringState) (h : Reachable s)
    (hd : s.isDragged = true) (dt : ℝ) :
    (s.lastDragX = s.currentX ∧ s.lastDragY = s.currentY) ∧
    (s.currentX - s.lastDragX = 0 ∧ s.currentY - s.lastDragY = 0) ∧
    ((update s dt).initialReleaseVelocityX = 0 ∧
      (update s dt).initialReleaseVelocityY = 0) := by
  obtain ⟨hlx, hly⟩ := (reachable_inv h).drag_last hd
  have hu := reachable_inv (Reachable.step_update dt h)
  exact ⟨⟨hlx, hly⟩, ⟨by rw [hlx, sub_self], by rw [hly, sub_self]⟩, hu.rvx, hu.rvy⟩

/-- Witness for C3 at the dragged state reached by `dragTo (400, 300)` from
the initial state, with `deltaTime = 1`. -/
theorem C3_drag_tracks_position_witness :
    ((dragTo initialState 400 300).lastDragX = (dragTo initialState 400 300).currentX ∧
      (dragTo initialState 400 300).lastDragY = (dragTo initialState 400 300).currentY) ∧
    ((dragTo initialState 400 300).currentX - (dragTo initialState 400 300).lastDragX = 0 ∧
      (dragTo initialState 400 300).currentY - (dragTo initialState 400 300).lastDragY = 0) ∧
    ((update (dragTo initialState 400 300) 1).initialReleaseVelocityX = 0 ∧
      (update (dragTo initialState 400 300) 1).initialReleaseVelocityY = 0) :=
  C3_drag_tracks_position (dragTo initialState 400 300)
    (Reachable.step_dragTo 400 300 Reachable.init)
    (dragTo_isDragged initialState 400 300) 1

/-- Claim C9: from the default-constructed state, a single
`update 0.016` call strictly increases `currentY`, the resulting
anchor-to-mass length strictly exceeds 200, and the length stays at
most 450. -/
theorem C9_first_step_falls :
    initialState.currentY < (update initialState 0.016).currentY ∧
    200 < (update initialState 0.016).len ∧
    (update initialState 0.016).len ≤ 450 := by
  rw [update_init_016, firstStepState_len]
  refine ⟨?_, by norm_num, by norm_num⟩
  show (300 : ℝ) < 300.0025088
  norm_num

/-- Claim C10: `release` is idempotent — calling it twice in a row leaves
the state exactly identical to calling it once. -/
theorem C10_release_idempotent (s : SpringState) :
    release (release s) = release s := rfl

/-- Claim C2 (evaluation at the failing input): dragging from `(400, 300)`
to `(410, 300)` moves the mass by `Δx = 10`; after a dragged-mode
`update 1` (the one-second sample) and `release`, the handoff stage of the
next `update` leaves the live velocity at `(0, 0)`, not `Δ` — because
`dragTo` itself refreshed the last-drag position, the sampled displacement
was zero. -/
theorem C2_release_handoff_dead :
    (dragTo (dragTo initialState 400 300) 410 300).currentX -
      (dragTo initialState 400 300).currentX = 10 ∧
    (release (update (dragTo (dragTo initialState 400 300) 410 300) 1)).initialReleaseVelocityX = 0 ∧
    (applyRelease (release (update (dragTo (dragTo initialState 400 300) 410 300) 1))).velocityX = 0 ∧
    (applyRelease (release (update (dragTo (dragTo initialState 400 300) 410 300) 1))).velocityY = 0 ∧
    (10 : ℝ) ≠ 0 := by
  rw [dragTo_init_400_300, dragTo_dragged_410_300, update_draggedState2]
  refine ⟨?_, rfl, ?_, ?_, by norm_num⟩
  · show (410 : ℝ) - 400 = 10
    norm_num
  · rw [applyRelease_self _ rfl rfl]
    rfl
  · rw [applyRelease_self _ rfl rfl]
    rfl

/-- Claim C4 counterexample: after one second of free fall the mass has
velocity `(0, 9.8)`; a `dragTo` straight to the out-of-envelope point
`(400, 1000)` enters dragged mode without zeroing the velocity, so a
reachable state has `isDragged = true` and a nonzero live velocity. -/
theorem C4_counterexample :
    Reachable (dragTo fallState 400 1000) ∧
    (dragTo fallState 400 1000).isDragged = true ∧
    (dragTo fallState 400 1000).velocityY ≠ 0 := by
  have hdl : dragLen fallState 400 1000 = 900 := by
    simp only [dragLen, fallState, initialState, SCREEN_WIDTH]
    apply sqrt_eval _ _ (by norm_num)
    norm_num
  have hpin := dragTo_pin_max fallState 400 1000
    (by show (100 : ℝ) ≤ 450; norm_num) rfl
    (by rw [hdl]; show (450 : ℝ) < 900; norm_num)
  refine ⟨?_, dragTo_isDragged fallState 400 1000, ?_⟩
  · exact update_init_1 ▸ Reachable.step_dragTo 400 1000 (Reachable.step_update 1 Reachable.init)
  · rw [hpin]
    show (9.8 : ℝ) ≠ 0
    norm_num

/-- Claim C4 amended: in every reachable state with `isDragged = true` and
`isLimitReached = false` (a drag tracked through an in-envelope pointer),
the live velocity is `(0, 0)`; a drag entered directly through an
out-of-envelope pointer keeps the pre-drag velocity. -/
theorem C4_amended_drag_velocity (s : SpringState) (h : Reachable s)
    (hd : s.isDragged = true) (hl : s.isLimitReached = false) :
    s.velocityX = 0 ∧ s.velocityY = 0 :=
  (reachable_inv h).drag_vel hd hl

/-- Witness for the amended C4 at the in-envelope drag of the initial state
to `(400, 300)`. -/
theorem C4_amended_drag_velocity_witness :
    (dragTo initialState 400 300).velocityX = 0 ∧
    (dragTo initialState 400 300).velocityY = 0 :=
  C4_amended_drag_velocity (dragTo initialState 400 300)
    (Reachable.step_dragTo 400 300 Reachable.init)
    (dragTo_isDragged initialState 400 300)
    (by rw [dragTo_init_400_300]; rfl)

/-- A zero-length degenerate state: the mass exactly at the anchor. -/
def zeroLenState : SpringState :=
  { initialState with currentX := 400, currentY := 100 }

lemma zeroLenState_len : zeroLenState.len = 0 := by
  simp only [SpringState.len, zeroLenState, initialState, SCREEN_WIDTH]
  norm_num

/-- Claim C6 counterexample: on a free-mode state whose length is exactly 0
the force computation has a zero denominator and no special case guards it —
the checked variant of `update` reports the division by zero. -/
theorem C6_counterexample :
    zeroLenState.isDragged = false ∧ zeroLenState.len = 0 ∧
    updateChecked zeroLenState 1 = none := by
  refine ⟨rfl, zeroLenState_len, ?_⟩
  rw [updateChecked, if_neg (fun h => Bool.noConfusion h),
    if_pos (by rw [applyRelease_self _ rfl rfl]; exact zeroLenState_len)]

/-- Claim C6 amended: the code has no zero-length special case, but on every
reachable state the force denominator is nonzero (the length stays at least
`minLength = 100`), so no free-mode `update` call ever divides by zero and
the checked variant agrees with `update`. -/
theorem C6_amended_no_div_by_zero (s : SpringState) (h : Reachable s) (dt : ℝ) :
    (applyRelease s).len ≠ 0 ∧ updateChecked s dt = some (update s dt) := by
  have hi := reachable_inv h
  have h1 : (applyRelease s).len ≠ 0 := by
    rw [applyRelease_len]
    exact ne_of_gt (lt_of_lt_of_le (by norm_num) hi.len_lb)
  refine ⟨h1, ?_⟩
  by_cases hd : s.isDragged = true
  · rw [updateChecked, if_pos hd, update, if_pos hd]
  · rw [updateChecked, if_neg hd, if_neg h1, update, if_neg hd]

/-- Witness for the amended C6 at the initial state with `deltaTime = 1`. -/
theorem C6_amended_no_div_by_zero_witness :
    (applyRelease initialState).len ≠ 0 ∧
    updateChecked initialState 1 = some (update initialState 1) :=
  C6_amended_no_div_by_zero initialState Reachable.init 1

/-- A state with a nonzero pending release velocity. -/
def pendingState : SpringState :=
  { initialState with initialReleaseVelocityX := 1 }

/-- Claim C7 counterexample: `update` with `deltaTime = 0` is not a no-op on
every state — on a state with a nonzero pending release velocity the
one-shot handoff still fires, consuming the pending velocity. -/
theorem C7_counterexample :
    update pendingState 0 ≠ pendingState ∧
    pendingState.initialReleaseVelocityX = 1 := by
  refine ⟨?_, rfl⟩
  have h1 : applyRelease pendingState =
      { pendingState with
        velocityX := 1
        velocityY := 0
        initialReleaseVelocityX := 0
        initialReleaseVelocityY := 0 } := by
    rw [applyRelease, if_pos]
    · rfl
    · left
      show |(1 : ℝ)| > 0
      norm_num
  have hval : (update pendingState 0).initialReleaseVelocityX = 0 := by
    rw [update, if_neg (fun h => Bool.noConfusion h), freeStep, h1, enforceLength_rvX]
    rfl
  intro hEq
  rw [hEq] at hval
  exact one_ne_zero hval

/-- Claim C7 amended: on every reachable free-mode state
(`isDragged = false`), `update 0` is a no-op — the entire state is
unchanged — and both divisors of the free branch are nonzero there (the
mass is 1 and the length is at least 100), so no division degenerates.
The dragged branch is excluded: at `deltaTime = 0` it divides the
displacement by zero (src/Spring.cc lines 73-74), which is not a no-op of
the program. -/
theorem C7_amended_zero_dt_noop (s : SpringState) (h : Reachable s)
    (hd : s.isDragged = false) :
    s.mass ≠ 0 ∧ s.len ≠ 0 ∧ update s 0 = s := by
  have hi := reachable_inv h
  refine ⟨?_, ?_, ?_⟩
  · rw [reachable_mass h]
    norm_num
  · exact ne_of_gt (lt_of_lt_of_le (by norm_num) hi.len_lb)
  · rw [update, if_neg (by simp [hd]), freeStep, applyRelease_self s hi.rvx hi.rvy]
    have he : eulerStep s 0 = s := by
      apply SpringState.ext <;> simp [eulerStep]
    rw [he]
    apply enforceLength_of_mem
    · rw [hi.hmin]
      exact hi.len_lb
    · rw [hi.hmax]
      exact hi.len_ub

/-- Witness for the amended C7 at the initial state. -/
theorem C7_amended_zero_dt_noop_witness :
    initialState.mass ≠ 0 ∧ initialState.len ≠ 0 ∧
    update initialState 0 = initialState :=
  C7_amended_zero_dt_noop initialState Reachable.init rfl

/-- A free-mode state whose position is already inside the minimum-length
boundary: distance 50 from the anchor, velocity `(2, -4)`. -/
def sC5 : SpringState :=
  { initialState with currentX := 430, currentY := 140, velocityX := 2, velocityY := -4 }

lemma sC5_len : sC5.len = 50 := by
  simp only [SpringState.len, sC5, initialState, SCREEN_WIDTH]
  apply sqrt_eval _ _ (by norm_num)
  norm_num

lemma freeStep_sC5 : freeStep sC5 0 = sC5 := by
  rw [freeStep, applyRelease_self sC5 rfl rfl]
  apply SpringState.ext <;> simp [eulerStep]

/-- Claim C5: whenever a free-mode `update` step produces an intermediate
position whose length from the anchor is below `minLength` (or above
`maxLength`), the returned position is clamped onto the violated boundary at
the same angular direction from the anchor (its length equals the bound and
its displacement is the multiple `bound / length` of the intermediate
displacement), and both velocity components are negated and scaled by
`0.5`. -/
theorem C5_boundary_bounce (s : SpringState) (dt : ℝ) (hd : ¬s.isDragged = true)
    (hmin0 : 0 ≤ s.minLength) (hmm : s.minLength ≤ s.maxLength) :
    ((freeStep s dt).len < s.minLength →
      (update s dt).len = s.minLength ∧
      (update s dt).velocityX = -(0.5 * (freeStep s dt).velocityX) ∧
      (update s dt).velocityY = -(0.5 * (freeStep s dt).velocityY) ∧
      ((freeStep s dt).len ≠ 0 →
        (update s dt).currentX - s.anchorX =
          s.minLength / (freeStep s dt).len * ((freeStep s dt).currentX - s.anchorX) ∧
        (update s dt).currentY - s.anchorY =
          s.minLength / (freeStep s dt).len * ((freeStep s dt).currentY - s.anchorY))) ∧
    (s.maxLength < (freeStep s dt).len →
      (update s dt).len = s.maxLength ∧
      (update s dt).velocityX = -(0.5 * (freeStep s dt).velocityX) ∧
      (update s dt).velocityY = -(0.5 * (freeStep s dt).velocityY) ∧
      ((freeStep s dt).len ≠ 0 →
        (update s dt).currentX - s.anchorX =
          s.maxLength / (freeStep s dt).len * ((freeStep s dt).currentX - s.anchorX) ∧
        (update s dt).currentY - s.anchorY =
          s.maxLength / (freeStep s dt).len * ((freeStep s dt).currentY - s.anchorY))) := by
  have hu : update s dt = enforceLength (freeStep s dt) := by rw [update, if_neg hd]
  set t := freeStep s dt with hts
  have hfmin : t.minLength = s.minLength := freeStep_minLength s dt
  have hfmax : t.maxLength = s.maxLength := freeStep_maxLength s dt
  have hax : t.anchorX = s.anchorX := freeStep_anchorX s dt
  have hay : t.anchorY = s.anchorY := freeStep_anchorY s dt
  constructor
  · intro hviol
    have hviol' : t.len < t.minLength := by rw [hfmin]; exact hviol
    have he := enforceLength_of_lt t hviol'
    rw [hu, he]
    refine ⟨?_, ?_, ?_, ?_⟩
    · simp only [SpringState.len]
      rw [len_clamp t.anchorX t.anchorY (t.currentX - t.anchorX) (t.currentY - t.anchorY)
        t.minLength (by rw [hfmin]; exact hmin0)]
      exact hfmin
    · show t.velocityX * (-0.5) = -(0.5 * t.velocityX)
      ring
    · show t.velocityY * (-0.5) = -(0.5 * t.velocityY)
      ring
    · intro hL
      have hne : ¬(t.currentX - t.anchorX = 0 ∧ t.currentY - t.anchorY = 0) := by
        intro hc
        exact hL ((sqrt_sq_sum_eq_zero_iff _ _).mpr hc)
      have hcos := cos_atan2 (t.currentY - t.anchorY) (t.currentX - t.anchorX) hne
      have hsin := sin_atan2 (t.currentY - t.anchorY) (t.currentX - t.anchorX)
      constructor
      · show t.anchorX + t.minLength *
            Real.cos (atan2 (t.currentY - t.anchorY) (t.currentX - t.anchorX)) - s.anchorX = _
        rw [hcos, ← hax, ← hfmin]
        simp only [SpringState.len]
        ring
      · show t.anchorY + t.minLength *
            Real.sin (atan2 (t.currentY - t.anchorY) (t.currentX - t.anchorX)) - s.anchorY = _
        rw [hsin, ← hay, ← hfmin]
        simp only [SpringState.len]
        ring
  · intro hviol
    have hviol' : t.maxLength < t.len := by rw [hfmax]; exact hviol
    have hnotlt : ¬t.len < t.minLength := by
      rw [hfmin]
      exact not_lt.mpr (le_trans hmm (le_of_lt (by rw [← hfmax]; exact hviol')))
    have he := enforceLength_of_gt t hnotlt hviol'
    rw [hu, he]
    refine ⟨?_, ?_, ?_, ?_⟩
    · simp only [SpringState.len]
      rw [len_clamp t.anchorX t.anchorY (t.currentX - t.anchorX) (t.currentY - t.anchorY)
        t.maxLength (by rw [hfmax]; exact le_trans hmin0 hmm)]
      exact hfmax
    · show t.velocityX * (-0.5) = -(0.5 * t.velocityX)
      ring
    · show t.velocityY * (-0.5) = -(0.5 * t.velocityY)
      ring
    · intro hL
      have hne : ¬(t.currentX - t.anchorX = 0 ∧ t.currentY - t.anchorY = 0) := by
        intro hc
        exact hL ((sqrt_sq_sum_eq_zero_iff _ _).mpr hc)
      have hcos := cos_atan2 (t.currentY - t.anchorY) (t.currentX - t.anchorX) hne
      have hsin := sin_atan2 (t.currentY - t.anchorY) (t.currentX - t.anchorX)
      constructor
      · show t.anchorX + t.maxLength *
            Real.cos (atan2 (t.currentY - t.anchorY) (t.currentX - t.anchorX)) - s.anchorX = _
        rw [hcos, ← hax, ← hfmax]
        simp only [SpringState.len]
        ring
      · show t.anchorY + t.maxLength *
            Real.sin (atan2 (t.currentY - t.anchorY) (t.currentX - t.anchorX)) - s.anchorY = _
        rw [hsin, ← hay, ← hfmax]
        simp only [SpringState.len]
        ring

/-- Witness for C5: a free-mode state at distance 50 < 100 from the anchor
with velocity `(2, -4)` and `deltaTime = 0`. -/
theorem C5_boundary_bounce_witness :
    (update sC5 0).len = sC5.minLength ∧
    (update sC5 0).velocityX = -(0.5 * (freeStep sC5 0).velocityX) ∧
    (update sC5 0).velocityY = -(0.5 * (freeStep sC5 0).velocityY) ∧
    (update sC5 0).currentX - sC5.anchorX =
      sC5.minLength / (freeStep sC5 0).len * ((freeStep sC5 0).currentX - sC5.anchorX) ∧
    (update sC5 0).currentY - sC5.anchorY =
      sC5.minLength / (freeStep sC5 0).len * ((freeStep sC5 0).currentY - sC5.anchorY) := by
  have hviol : (freeStep sC5 0).len < sC5.minLength := by
    rw [freeStep_sC5, sC5_len]
    show (50 : ℝ) < 100
    norm_num
  have hL : (freeStep sC5 0).len ≠ 0 := by
    rw [freeStep_sC5, sC5_len]
    norm_num
  have h := (C5_boundary_bounce sC5 0 (fun h => Bool.noConfusion h)
    (by show (0 : ℝ) ≤ 100; norm_num) (by show (100 : ℝ) ≤ 450; norm_num)).1 hviol
  exact ⟨h.1, h.2.1, h.2.2.1, (h.2.2.2 hL).1, (h.2.2.2 hL).2⟩

/-- Claim C8: the first `dragTo` call whose pointer candidate length exceeds
`maxLength` while `isLimitReached` is false clamps the position to length
`maxLength` along the pointer angle, records it as the last-drag position
and sets `isLimitReached`; any further `dragTo` call on a pinned state whose
pointer is still outside the envelope leaves the position unchanged with
`isLimitReached` still true. -/
theorem C8_drag_pinning (s t : SpringState) (x y u v : ℝ)
    (hsm : s.minLength ≤ s.maxLength) (hs0 : 0 ≤ s.maxLength)
    (hl : s.isLimitReached = false) (hout : s.maxLength < dragLen s x y)
    (htl : t.isLimitReached = true)
    (hout2 : dragLen t u v < t.minLength ∨ t.maxLength < dragLen t u v) :
    ((dragTo s x y).len = s.maxLength ∧
      (dragTo s x y).currentX =
        s.anchorX + s.maxLength * Real.cos (atan2 (y - s.anchorY) (x - s.anchorX)) ∧
      (dragTo s x y).currentY =
        s.anchorY + s.maxLength * Real.sin (atan2 (y - s.anchorY) (x - s.anchorX)) ∧
      (dragTo s x y).lastDragX = (dragTo s x y).currentX ∧
      (dragTo s x y).lastDragY = (dragTo s x y).currentY ∧
      (dragTo s x y).isLimitReached = true) ∧
    ((dragTo t u v).currentX = t.currentX ∧
      (dragTo t u v).currentY = t.currentY ∧
      (dragTo t u v).isLimitReached = true) := by
  have hp := dragTo_pin_max s x y hsm hl hout
  have hn := dragTo_pinned_noop t u v htl hout2
  rw [hp, hn]
  constructor
  · refine ⟨?_, rfl, rfl, rfl, rfl, rfl⟩
    simp only [SpringState.len]
    exact len_clamp s.anchorX s.anchorY (x - s.anchorX) (y - s.anchorY) s.maxLength hs0
  · exact ⟨rfl, rfl, htl⟩

lemma dragLen_init_400_1000 : dragLen initialState 400 1000 = 900 := by
  simp only [dragLen, initialState, SCREEN_WIDTH]
  apply sqrt_eval _ _ (by norm_num)
  norm_num

/-- Witness for C8: the first out-of-range call drags the initial state to
`(400, 1000)` (candidate length 900 > 450); the second call drags the pinned
state to `(400, 2000)` (candidate length 1900, still outside). -/
theorem C8_drag_pinning_witness :
    ((dragTo initialState 400 1000).len = initialState.maxLength ∧
      (dragTo initialState 400 1000).currentX =
        initialState.anchorX + initialState.maxLength *
          Real.cos (atan2 (1000 - initialState.anchorY) (400 - initialState.anchorX)) ∧
      (dragTo initialState 400 1000).currentY =
        initialState.anchorY + initialState.maxLength *
          Real.sin (atan2 (1000 - initialState.anchorY) (400 - initialState.anchorX)) ∧
      (dragTo initialState 400 1000).lastDragX = (dragTo initialState 400 1000).currentX ∧
      (dragTo initialState 400 1000).lastDragY = (dragTo initialState 400 1000).currentY ∧
      (dragTo initialState 400 1000).isLimitReached = true) ∧
    ((dragTo (dragTo initialState 400 1000) 400 2000).currentX =
        (dragTo initialState 400 1000).currentX ∧
      (dragTo (dragTo initialState 400 1000) 400 2000).currentY =
        (dragTo initialState 400 1000).currentY ∧
      (dragTo (dragTo initialState 400 1000) 400 2000).isLimitReached = true) := by
  have hout : initialState.maxLength < dragLen initialState 400 1000 := by
    rw [dragLen_init_400_1000]
    show (450 : ℝ) < 900
    norm_num
  have htl : (dragTo initialState 400 1000).isLimitReached = true := by
    rw [dragTo_pin_max initialState 400 1000 (by show (100 : ℝ) ≤ 450; norm_num) rfl hout]
  have hdl2 : dragLen (dragTo initialState 400 1000) 400 2000 = 1900 := by
    simp only [dragLen, dragTo_anchorX, dragTo_anchorY, initialState, SCREEN_WIDTH]
    apply sqrt_eval _ _ (by norm_num)
    norm_num
  have hout2 : dragLen (dragTo initialState 400 1000) 400 2000 <
        (dragTo initialState 400 1000).minLength ∨
      (dragTo initialState 400 1000).maxLength <
        dragLen (dragTo initialState 400 1000) 400 2000 := by
    right
    rw [hdl2, dragTo_maxLength]
    show (450 : ℝ) < 1900
    norm_num
  exact C8_drag_pinning initialState (dragTo initialState 400 1000) 400 1000 400 2000
    (by show (100 : ℝ) ≤ 450; norm_num) (by show (0 : ℝ) ≤ 450; norm_num)
    rfl hout htl hout2

end Spring
